import Mathlib

/-!
Shallow embedding of the addressing/iteration core of `src/model.py`:
the gap-tolerant cell iterator (`CellLine`), line/series name lookup,
index validation of the two backends, cell clearing, and packed colors.
Machine integers are modelled as `Nat`/`Int`; fallible Python code
returns `Except`; the unbounded generator loops are fuel-indexed.
-/

/-- model.py:12 — maximum run of empty cells tolerated by the gap-tolerant scan. -/
def MAX_CELL_GAP : Nat := 10

/-- model.py:11 — sentinel color meaning "default / no explicit color". -/
def DEFAULT_COLOR : Int := -1

/-- Host-visible content of one cell along a line: scalar value (`none` =
absent/empty) and packed background color (`DEFAULT_COLOR` = sentinel).
Cells hold no other state in the source (model.py Cell: value + color,
re-read live from the host on every access). -/
structure CellData where
  val : Option String
  color : Int
deriving DecidableEq

/-- Cell.string (model.py:1017-1026): the string rendition used by the
emptiness test of the iterator; an absent value renders as `""`. -/
def cellString (c : CellData) : String := c.val.getD ""

/-- State of the gap-tolerant iterator CellLine (model.py:690-712): cursor `i`
(next position to fetch) and `highest_inhabited_i` (initially `-1`). -/
structure CellLineState where
  i : Nat
  highestInhabited : Int
deriving DecidableEq

/-- Initial CellLine state: `i = 0`, `highest_inhabited_i = -1` (model.py:697-698). -/
def initCL : CellLineState := ⟨0, -1⟩

/-- The forward probe of CellLine.__next__ (model.py:724-732): scan offsets
`1 .. MAX_CELL_GAP - 1` ahead of position `i0` and return the first offset
whose cell is non-empty (`test_cell.string != ''`), `none` if the window is
all empty (the `for ... else` branch). -/
def probeGap (line : Nat → CellData) (i0 : Nat) : Option Nat :=
  (List.range' 1 (MAX_CELL_GAP - 1)).find? (fun k => decide (cellString (line (i0 + k)) ≠ ""))

/-- One step of CellLine.__next__ (model.py:717-737) along a single line,
`line p` being the cell at axis position `p`.  Returns the emitted cell's
position and the successor state, or `none` for `StopIteration`:
if the fetched cell is empty and the cursor is past `highest_inhabited_i`,
probe ahead; on probe success record the found position as
`highest_inhabited_i` and still emit the empty cell, on probe failure stop
without emitting. -/
def cellLineNext (line : Nat → CellData) (s : CellLineState) : Option (Nat × CellLineState) :=
  if cellString (line s.i) = "" ∧ (s.i : Int) > s.highestInhabited then
    match probeGap line s.i with
    | some k => some (s.i, ⟨s.i + 1, ((s.i + k : Nat) : Int)⟩)
    | none => none
  else
    some (s.i, ⟨s.i + 1, s.highestInhabited⟩)

/-- Positions emitted by iterating a CellLine to exhaustion, fuel-bounded. -/
def cellLineRun (line : Nat → CellData) : Nat → CellLineState → List Nat
  | 0, _ => []
  | fuel + 1, s =>
    match cellLineNext line s with
    | none => []
    | some (p, s') => p :: cellLineRun line fuel s'

/-- Line.__len__ of the backends (model.py:915-919, 1168-1172): count the
cells produced by the gap-tolerant iteration; `none` = fuel exhausted
before the iterator stopped. -/
def lineLen (line : Nat → CellData) : Nat → CellLineState → Nat → Option Nat
  | 0, _, _ => none
  | fuel + 1, s, n =>
    match cellLineNext line s with
    | none => some n
    | some (_, s') => lineLen line fuel s' (n + 1)

/-- Row `rowIdx` of a sheet viewed as a line along x (a CellLine with
axis `'x'`, model.py:719-720). -/
def sheetRowLine (sheet : Nat → Nat → CellData) (rowIdx : Nat) : Nat → CellData :=
  fun x => sheet x rowIdx

/-- Column `colIdx` of a sheet viewed as a line along y (a CellLine with
axis `'y'`). -/
def sheetColLine (sheet : Nat → Nat → CellData) (colIdx : Nat) : Nat → CellData :=
  fun y => sheet colIdx y

/-- LineSeries.__len__ (model.py:296-306), for the `columns` series of a sheet
whose reference line is row `refRowIdx`.  Each pass of the `while` loop
evaluates `self.__iter__().__next__()` — a FRESH generator every time, hence
always the series' first line — and tests its truthiness, which Python takes
from `Line.__len__`.  Result: `none` = loop fuel exhausted (the loop never
exited), `some none` = the Python function fell off the end (the `while`
condition was falsy; no `return` runs, so Python returns `None`),
`some (some n)` = `StopIteration` was raised and `count` returned. -/
def seriesLenLoop (sheet : Nat → Nat → CellData) (refRowIdx : Nat) (innerFuel : Nat) :
    Nat → Nat → Option (Option Nat)
  | 0, _ => none
  | fuel + 1, count =>
    match cellLineNext (sheetRowLine sheet refRowIdx) initCL with
    | none => some (some count)
    | some (p, _) =>
      match lineLen (sheetColLine sheet p) innerFuel initCL 0 with
      | none => none
      | some n => if n ≠ 0 then seriesLenLoop sheet refRowIdx innerFuel fuel (count + 1)
                  else some none

/-- Concrete sheet used to exercise the length loop: the single cell (0, 0)
holds "a", every other cell is empty. -/
def sheetA (x y : Nat) : CellData :=
  if x = 0 ∧ y = 0 then { val := some "a", color := 0 } else { val := none, color := 0 }

/-- Python exception classes raised by the modelled code paths. -/
inductive PyErr
  | typeError
  | valueError
  | attributeError
  | assertionError
deriving DecidableEq

/-- The per-line state set by Line.__init__ (model.py:381-401). -/
structure LineRec where
  index : Int
  reference_index : Int
deriving DecidableEq

/-- Line.__init__ (model.py:399-401).  After type-checking both arguments the
source stores `index` into BOTH fields: line 401 reads
`self.reference_index = index` (not `reference_index`). -/
def lineInit (index reference_index : Int) : LineRec :=
  { index := index, reference_index := index }

/-- The two mutable reference indices of a Sheet (model.py:73-74). -/
structure SheetRec where
  refRowIndex : Int
  refColIndex : Int
deriving DecidableEq

/-- Office.XW.Sheet.get_row_by_index (model.py:888-894): rejects a negative
index with ValueError before constructing the Row. -/
def xwGetRowByIndex (sh : SheetRec) (rowIndex : Int) : Except PyErr LineRec :=
  if rowIndex < 0 then Except.error PyErr.valueError
  else Except.ok (lineInit rowIndex sh.refRowIndex)

/-- Office.XW.Sheet.get_column_by_index (model.py:896-906): rejects a negative
index with ValueError before constructing the Column. -/
def xwGetColumnByIndex (sh : SheetRec) (columnIndex : Int) : Except PyErr LineRec :=
  if columnIndex < 0 then Except.error PyErr.valueError
  else Except.ok (lineInit columnIndex sh.refRowIndex)

/-- Office.Uno.Sheet.get_row_by_index (model.py:1148-1161): after the
isinstance check it constructs the Row directly — unlike its three sibling
accessors there is NO negative-index check, and constructing a Row performs
no host call. -/
def unoGetRowByIndex (sh : SheetRec) (rowIndex : Int) : Except PyErr LineRec :=
  Except.ok (lineInit rowIndex sh.refRowIndex)

/-- Office.Uno.Sheet.get_column_by_index (model.py:1131-1146). -/
def unoGetColumnByIndex (sh : SheetRec) (columnIndex : Int) : Except PyErr LineRec :=
  if columnIndex < 0 then Except.error PyErr.valueError
  else Except.ok (lineInit columnIndex sh.refColIndex)

/-- Sheet.get_row_index_from_name (model.py:153-164).  The source loop is
`for y, cell in enumerate(self.rows)` — `self.rows` is a LineSeries yielding
Row OBJECTS (one per cell of the sheet's reference column), not cells — and
the body reads `cell.value`; Row has no `value` attribute, so the first
yielded row raises AttributeError.  Only when the reference column yields no
cell at all does the loop finish and return None.  `refColLine p` is the
reference-column cell at row `p`. -/
def getRowIndexFromName (refColLine : Nat → CellData) (rowName : String) :
    Except PyErr (Option Nat) :=
  match cellLineNext refColLine initCL with
  | none => Except.ok none
  | some _ => Except.error PyErr.attributeError

/-- Sheet.get_row_by_name (model.py:142-151): resolves the index by name, then
fetches the row by index; `ok none` models the Python `None` result.  The
result Row is represented by its index. -/
def getRowByName (refColLine : Nat → CellData) (rowName : String) :
    Except PyErr (Option Nat) :=
  match getRowIndexFromName refColLine rowName with
  | Except.error e => Except.error e
  | Except.ok none => Except.ok none
  | Except.ok (some y) => Except.ok (some y)

/-- The optional `x_identifier_type` / `y_identifier_type` hints of
Sheet.get_cell ('index' or 'name'; `none` models Python None). -/
inductive IdHint
  | index
  | name
deriving DecidableEq

/-- How one coordinate of Sheet.get_cell ends up being resolved. -/
inductive AxisRes
  | byName
  | byIndex
deriving DecidableEq

/-- x-coordinate dispatch of Sheet.get_cell (model.py:181-187):
by name iff `x_identifier_type == 'name' or x_identifier_type is None and
isinstance(x_identifier, str)`. -/
def getCellXRes (xT : Option IdHint) (xIsStr : Bool) : AxisRes :=
  if xT = some IdHint.name ∨ (xT = none ∧ xIsStr = true) then AxisRes.byName
  else AxisRes.byIndex

/-- y-coordinate dispatch of Sheet.get_cell (model.py:188-193).  The source
condition reads `y_identifier_type == 'name' or X_identifier_type is None
and isinstance(y_identifier, str)` — the second disjunct tests the X hint. -/
def getCellYRes (xT yT : Option IdHint) (yIsStr : Bool) : AxisRes :=
  if yT = some IdHint.name ∨ (xT = none ∧ yIsStr = true) then AxisRes.byName
  else AxisRes.byIndex

/-- A scalar cell value as the backends see it (str / number; floats are
modelled by their integral values, which the claims never distinguish). -/
inductive PyVal
  | str (s : String)
  | num (n : Int)
deriving DecidableEq

/-- Host-side state of one cell for the clear analysis: scalar value
(`none` = absent) and background color (`none` = host default). -/
structure HostCell where
  value : Option PyVal
  color : Option Nat
deriving DecidableEq

/-- Office.XW.Cell value setter (model.py:1004-1006): writes straight through
to the host range; writing None clears the cell. -/
def xwSetValue (c : HostCell) (v : Option PyVal) : HostCell :=
  { c with value := v }

/-- Office.XW.Cell.set_color (model.py:975-980): a color ≥ 0 is written as an
RGB value, DEFAULT_COLOR (-1) restores the host default (None); any other
negative falls through both branches and writes nothing. -/
def xwSetColor (c : HostCell) (color : Int) : HostCell :=
  if color ≥ 0 then { c with color := some color.toNat }
  else if color = -1 then { c with color := none }
  else c

/-- Cell.clear (model.py:607-610) under the XW backend: value := None, then
set_color(DEFAULT_COLOR). -/
def xwCellClear (c : HostCell) : HostCell :=
  xwSetColor (xwSetValue c none) DEFAULT_COLOR

/-- Office.Uno.Cell value setter (model.py:1299-1311): first line is
`assert isinstance(new_value, (str, int, float))`, so writing None raises
AssertionError before anything reaches the host. -/
def unoSetValue (c : HostCell) (v : Option PyVal) : Except PyErr HostCell :=
  match v with
  | none => Except.error PyErr.assertionError
  | some (PyVal.str s) => Except.ok { c with value := some (PyVal.str s) }
  | some (PyVal.num n) => Except.ok { c with value := some (PyVal.num n) }

/-- Office.Uno.Cell.set_color (model.py:1253-1263): writes the packed int to
CellBackColor (negative = host default, modelled as `none`). -/
def unoSetColor (c : HostCell) (color : Int) : HostCell :=
  { c with color := if color < 0 then none else some color.toNat }

/-- Cell.clear (model.py:607-610) under the Uno backend: the value write
raises before the color write is reached. -/
def unoCellClear (c : HostCell) : Except PyErr HostCell :=
  match unoSetValue c none with
  | Except.error e => Except.error e
  | Except.ok c' => Except.ok (unoSetColor c' DEFAULT_COLOR)

/-- A cleared cell in the line model: value absent, color the default
sentinel (Cell.clear, model.py:607-610). -/
def clearedCell : CellData := { val := none, color := DEFAULT_COLOR }

/-- Point update of a line by clearing the cell at position `p`. -/
def clearAt (line : Nat → CellData) (p : Nat) : Nat → CellData :=
  fun q => if q = p then clearedCell else line q

/-- Line.clear (model.py:429-439): `[cell.clear() for i, cell in
enumerate(self) if i > self.name_cell_index or include_header]`.  The
gap-tolerant iteration runs over the line state as mutated so far; `enumI`
is the `enumerate` counter and `nci` the line's `name_cell_index`. -/
def lineClearLoop (nci : Nat) (includeHeader : Bool) :
    Nat → Nat → CellLineState → (Nat → CellData) → (Nat → CellData)
  | 0, _, _, line => line
  | fuel + 1, enumI, s, line =>
    match cellLineNext line s with
    | none => line
    | some (p, s') =>
      lineClearLoop nci includeHeader fuel (enumI + 1) s'
        (if enumI > nci ∨ includeHeader = true then clearAt line p else line)

/-- Line.clear started from a fresh iterator (model.py:429-439). -/
def lineClear (line : Nat → CellData) (nci : Nat) (includeHeader : Bool) (fuel : Nat) :
    Nat → CellData :=
  lineClearLoop nci includeHeader fuel 0 initCL line

/-- First gap-tolerant scan position whose cell value equals `name` — the
shared loop shape of LineSeries.get_by_name (model.py:308-320) and
Line.get_cell_by_reference (model.py:420-423): walk the reference line with
the gap-tolerant iterator and stop at the first `cell.value == name`. -/
def findMatchPos (line : Nat → CellData) (name : String) : Nat → CellLineState → Option Nat
  | 0, _ => none
  | fuel + 1, s =>
    match cellLineNext line s with
    | none => none
    | some (p, s') =>
      if (line p).val = some name then some p else findMatchPos line name fuel s'

/-- LineSeries.get_by_name (model.py:308-320): index of the returned line
(`none` = the Python None result). -/
def lineSeriesGetByName (refLine : Nat → CellData) (name : String) (fuel : Nat) : Option Nat :=
  findMatchPos refLine name fuel initCL

/-- Line.get_cell_by_reference (model.py:420-423): index, within this line, of
the returned cell (`none` = the Python None result). -/
def lineGetCellByReference (refLine : Nat → CellData) (reference : String) (fuel : Nat) :
    Option Nat :=
  findMatchPos refLine reference fuel initCL

/-- Color constructor, RGB-tuple branch (model.py:1414-1431): validates each
component (the source checks only the upper bound, so components are
modelled as `Nat` matching the claim's 0..255 range) and packs
`(r << 16) + (g << 8) + b`. -/
def colorInitTuple (r g b : Nat) : Except String Nat :=
  if r > 255 ∨ g > 255 ∨ b > 255 then Except.error "ValueError"
  else Except.ok ((r <<< 16) + (g <<< 8) + b)

/-- Color.rgb (model.py:1441-1446). -/
def colorRgb (c : Nat) : Nat × Nat × Nat :=
  ((c >>> 16) &&& 255, (c >>> 8) &&& 255, c &&& 255)

/-- Concrete line for the C1 witness: non-empty at 0, 1, 2 and 12,
empty everywhere else. -/
def patGapNine : Nat → CellData := fun j =>
  if j = 0 ∨ j = 1 ∨ j = 2 ∨ j = 12 then { val := some "x", color := 0 }
  else { val := none, color := 0 }

/-- Concrete line for the C1 witness: non-empty at 0, 1, 2 and 13,
empty everywhere else (a 10-cell empty run at 3..12). -/
def patGapTen : Nat → CellData := fun j =>
  if j ≤ 2 ∨ j = 13 then { val := some "x", color := 0 }
  else { val := none, color := 0 }

/-- Concrete line for the C8 counterexample: non-empty at 0, 1, 2, empty
everywhere else. -/
def lineABC : Nat → CellData := fun j =>
  if j ≤ 2 then { val := some "v", color := 0 } else { val := none, color := 0 }

/-- Concrete line for the C10 witness: one cell valued "t" at position 15,
beyond the all-empty run 0..9; everything else empty. -/
def lineFar : Nat → CellData := fun p =>
  if p = 15 then { val := some "t", color := 0 } else { val := none, color := 0 }

/-! ## General lemmas about the gap-tolerant iterator -/

theorem list_find?_congr {α : Type} (l : List α) (p q : α → Bool)
    (h : ∀ a ∈ l, p a = q a) : l.find? p = l.find? q := by
  induction l with
  | nil => rfl
  | cons x xs ih =>
    simp only [List.find?]
    rw [h x (List.mem_cons_self x xs)]
    cases q x with
    | false => exact ih (fun a ha => h a (List.mem_cons_of_mem x ha))
    | true => rfl

theorem probeGap_congr (line line' : Nat → CellData) (i0 : Nat)
    (h : ∀ q, i0 ≤ q → (cellString (line q) = "" ↔ cellString (line' q) = "")) :
    probeGap line i0 = probeGap line' i0 := by
  unfold probeGap
  apply list_find?_congr
  intro k _
  exact decide_eq_decide.mpr (not_congr (h (i0 + k) (Nat.le_add_right _ _)))

theorem cellLineNext_congr (line line' : Nat → CellData) (s : CellLineState)
    (h : ∀ q, s.i ≤ q → (cellString (line q) = "" ↔ cellString (line' q) = "")) :
    cellLineNext line s = cellLineNext line' s := by
  unfold cellLineNext
  rw [probeGap_congr line line' s.i h]
  exact if_congr (and_congr_left' (h s.i (Nat.le_refl _))) rfl rfl

theorem cellLineRun_succ (line : Nat → CellData) (fuel : Nat) (s : CellLineState) :
    cellLineRun line (fuel + 1) s =
      match cellLineNext line s with
      | none => []
      | some (p, s') => p :: cellLineRun line fuel s' := rfl

theorem cellLineRun_cons (line : Nat → CellData) (fuel : Nat) (s : CellLineState)
    (p : Nat) (s' : CellLineState) (h : cellLineNext line s = some (p, s')) :
    cellLineRun line (fuel + 1) s = p :: cellLineRun line fuel s' := by
  rw [cellLineRun_succ, h]

theorem cellLineRun_nil (line : Nat → CellData) (fuel : Nat) (s : CellLineState)
    (h : cellLineNext line s = none) :
    cellLineRun line (fuel + 1) s = [] := by
  rw [cellLineRun_succ, h]

theorem cellLineRun_congr (line line' : Nat → CellData)
    (h : ∀ q, cellString (line q) = "" ↔ cellString (line' q) = "") :
    ∀ fuel s, cellLineRun line fuel s = cellLineRun line' fuel s := by
  intro fuel
  induction fuel with
  | zero => intro s; rfl
  | succ f ih =>
    intro s
    rw [cellLineRun_succ, cellLineRun_succ, cellLineNext_congr line line' s (fun q _ => h q)]
    cases hx : cellLineNext line' s with
    | none => rfl
    | some ps =>
      obtain ⟨p, s'⟩ := ps
      show p :: cellLineRun line f s' = p :: cellLineRun line' f s'
      rw [ih s']

theorem cellLineNext_some (line : Nat → CellData) (s : CellLineState) (p : Nat)
    (s' : CellLineState) (h : cellLineNext line s = some (p, s')) :
    p = s.i ∧ s'.i = s.i + 1 ∧
      (s'.highestInhabited = s.highestInhabited ∨
        ∃ k, 1 ≤ k ∧ k < MAX_CELL_GAP ∧ cellString (line (s.i + k)) ≠ "" ∧
          s'.highestInhabited = ((s.i + k : Nat) : Int)) := by
  unfold cellLineNext at h
  by_cases hc : cellString (line s.i) = "" ∧ (s.i : Int) > s.highestInhabited
  · rw [if_pos hc] at h
    cases hp : probeGap line s.i with
    | none => rw [hp] at h; cases h
    | some k =>
      rw [hp] at h
      simp only [Option.some.injEq, Prod.mk.injEq] at h
      obtain ⟨h1, h2⟩ := h
      subst h1
      subst h2
      refine ⟨rfl, rfl, Or.inr ?_⟩
      unfold probeGap at hp
      have hmem := List.mem_of_find?_eq_some hp
      have hpred := List.find?_some hp
      rw [List.mem_range'_1] at hmem
      simp only [MAX_CELL_GAP] at hmem ⊢
      exact ⟨k, hmem.1, by omega, of_decide_eq_true hpred, rfl⟩
  · rw [if_neg hc] at h
    simp only [Option.some.injEq, Prod.mk.injEq] at h
    obtain ⟨h1, h2⟩ := h
    subst h1
    subst h2
    exact ⟨rfl, rfl, Or.inl rfl⟩

theorem cellLineNext_gap_none (line : Nat → CellData) (a : Nat) (s : CellLineState)
    (hrun : ∀ j, j < MAX_CELL_GAP → cellString (line (a + j)) = "")
    (hi : s.i = a) (hh : s.highestInhabited < (a : Int)) :
    cellLineNext line s = none := by
  have h0 : cellString (line s.i) = "" := by
    rw [hi]
    simpa using hrun 0 (by simp [MAX_CELL_GAP])
  have hprobe : probeGap line s.i = none := by
    unfold probeGap
    rw [List.find?_eq_none]
    intro k hk
    rw [List.mem_range'_1] at hk
    simp only [MAX_CELL_GAP] at hk
    have he : cellString (line (a + k)) = "" := hrun k (by simp only [MAX_CELL_GAP]; omega)
    rw [hi]
    simp [he]
  unfold cellLineNext
  rw [if_pos ⟨h0, by rw [hi]; exact hh⟩, hprobe]

theorem cellLineRun_ge (line : Nat → CellData) :
    ∀ fuel s p, p ∈ cellLineRun line fuel s → s.i ≤ p := by
  intro fuel
  induction fuel with
  | zero =>
    intro s p hp
    simp [cellLineRun] at hp
  | succ f ih =>
    intro s p hp
    rw [cellLineRun_succ] at hp
    cases hx : cellLineNext line s with
    | none => rw [hx] at hp; cases hp
    | some ps =>
      obtain ⟨q, s'⟩ := ps
      rw [hx] at hp
      obtain ⟨h1, h2, _⟩ := cellLineNext_some line s q s' hx
      rcases List.mem_cons.mp hp with rfl | hp'
      · exact h1.symm.le
      · have := ih s' p hp'
        omega

theorem cellLineRun_stable (line : Nat → CellData) :
    ∀ fuel fuel' s, fuel ≤ fuel' → (cellLineRun line fuel s).length < fuel →
      cellLineRun line fuel' s = cellLineRun line fuel s := by
  intro fuel
  induction fuel with
  | zero => intro fuel' s _ hlen; exact absurd hlen (Nat.not_lt_zero _)
  | succ f ih =>
    intro fuel' s hle hlen
    obtain ⟨f', rfl⟩ : ∃ f', fuel' = f' + 1 := ⟨fuel' - 1, by omega⟩
    cases hx : cellLineNext line s with
    | none => rw [cellLineRun_nil line f' s hx, cellLineRun_nil line f s hx]
    | some ps =>
      obtain ⟨p, s'⟩ := ps
      rw [cellLineRun_cons line f s p s' hx] at hlen
      simp only [List.length_cons] at hlen
      rw [cellLineRun_cons line f' s p s' hx, cellLineRun_cons line f s p s' hx,
        ih f' s' (by omega) (by omega)]

/-! ## Name lookup never sees past a MAX_CELL_GAP run -/

theorem findMatchPos_succ (line : Nat → CellData) (name : String) (fuel : Nat)
    (s : CellLineState) :
    findMatchPos line name (fuel + 1) s =
      match cellLineNext line s with
      | none => none
      | some (p, s') =>
        if (line p).val = some name then some p else findMatchPos line name fuel s' := rfl

theorem findMatchPos_gap_none (line : Nat → CellData) (name : String) (a : Nat)
    (hrun : ∀ j, j < MAX_CELL_GAP → cellString (line (a + j)) = "")
    (hmatch : ∀ p, (line p).val = some name → a + MAX_CELL_GAP ≤ p) :
    ∀ fuel (s : CellLineState), s.i ≤ a → s.highestInhabited < (a : Int) →
      findMatchPos line name fuel s = none := by
  intro fuel
  induction fuel with
  | zero => intro s _ _; rfl
  | succ f ih =>
    intro s hsi hsh
    by_cases hia : s.i = a
    · rw [findMatchPos_succ, cellLineNext_gap_none line a s hrun hia hsh]
    · have hlt : s.i < a := by omega
      rw [findMatchPos_succ]
      cases hx : cellLineNext line s with
      | none => rfl
      | some ps =>
        obtain ⟨p, s'⟩ := ps
        obtain ⟨hp, hsucc, hhi⟩ := cellLineNext_some line s p s' hx
        show (if (line p).val = some name then some p else findMatchPos line name f s') = none
        rw [if_neg (fun hm =>
          absurd (hmatch p hm) (by simp only [MAX_CELL_GAP]; omega))]
        apply ih s'
        · omega
        · rcases hhi with heq | ⟨k, hk1, hk2, hkne, heq⟩
          · rw [heq]; exact hsh
          · rw [heq]
            have hka : s.i + k < a := by
              by_contra hge
              push_neg at hge
              simp only [MAX_CELL_GAP] at hk2
              have he : cellString (line (a + (s.i + k - a))) = "" := by
                apply hrun
                simp only [MAX_CELL_GAP]
                omega
              rw [show a + (s.i + k - a) = s.i + k by omega] at he
              exact hkne he
            exact_mod_cast hka

/-! ## Interleaved execution of Line.clear -/

theorem lineClearLoop_succ (nci : Nat) (ihdr : Bool) (fuel enumI : Nat) (s : CellLineState)
    (line : Nat → CellData) :
    lineClearLoop nci ihdr (fuel + 1) enumI s line =
      match cellLineNext line s with
      | none => line
      | some (p, s') =>
        lineClearLoop nci ihdr fuel (enumI + 1) s'
          (if enumI > nci ∨ ihdr = true then clearAt line p else line) := rfl

theorem lineClearLoop_spec (nci : Nat) (ihdr : Bool) (line0 : Nat → CellData) :
    ∀ fuel (s : CellLineState) (enumI : Nat) (line : Nat → CellData),
      enumI = s.i →
      (∀ q, s.i ≤ q → line q = line0 q) →
      ∀ p, lineClearLoop nci ihdr fuel enumI s line p =
        if p ∈ cellLineRun line0 fuel s ∧ (p > nci ∨ ihdr = true) then clearedCell
        else line p := by
  intro fuel
  induction fuel with
  | zero =>
    intro s enumI line _ _ p
    simp [lineClearLoop, cellLineRun]
  | succ f ih =>
    intro s enumI line henum hagree p
    have hnext : cellLineNext line s = cellLineNext line0 s :=
      cellLineNext_congr line line0 s (fun q hq => by rw [hagree q hq])
    rw [lineClearLoop_succ, hnext, cellLineRun_succ]
    cases hx : cellLineNext line0 s with
    | none =>
      show line p = if p ∈ ([] : List Nat) ∧ (p > nci ∨ ihdr = true) then clearedCell else line p
      simp
    | some ps =>
      obtain ⟨p0, s'⟩ := ps
      obtain ⟨hp0, hsucc, _⟩ := cellLineNext_some line0 s p0 s' hx
      show lineClearLoop nci ihdr f (enumI + 1) s'
          (if enumI > nci ∨ ihdr = true then clearAt line p0 else line) p =
        if p ∈ p0 :: cellLineRun line0 f s' ∧ (p > nci ∨ ihdr = true) then clearedCell
        else line p
      set line1 := if enumI > nci ∨ ihdr = true then clearAt line p0 else line with hline1
      have hagree' : ∀ q, s'.i ≤ q → line1 q = line0 q := by
        intro q hq
        have hlq : line q = line0 q := hagree q (by omega)
        rw [hline1]
        by_cases hc : enumI > nci ∨ ihdr = true
        · rw [if_pos hc]
          unfold clearAt
          rw [if_neg (by omega : ¬q = p0)]
          exact hlq
        · rw [if_neg hc]; exact hlq
      rw [ih s' (enumI + 1) line1 (by omega) hagree' p]
      by_cases hpp : p = p0
      · subst hpp
        have hnot : p ∉ cellLineRun line0 f s' := by
          intro hmem
          have := cellLineRun_ge line0 f s' p hmem
          omega
        rw [if_neg (fun hcc => hnot hcc.1)]
        rw [hline1]
        by_cases hc : enumI > nci ∨ ihdr = true
        · rw [if_pos hc]
          unfold clearAt
          rw [if_pos rfl]
          rw [if_pos ⟨List.mem_cons_self _ _, by
            rcases hc with h | h
            · exact Or.inl (by omega)
            · exact Or.inr h⟩]
        · rw [if_neg hc]
          rw [if_neg (fun hcc => hc (by
            rcases hcc.2 with h | h
            · exact Or.inl (by omega)
            · exact Or.inr h))]
      · have hline1p : line1 p = line p := by
          rw [hline1]
          by_cases hc : enumI > nci ∨ ihdr = true
          · rw [if_pos hc]
            unfold clearAt
            rw [if_neg hpp]
          · rw [if_neg hc]
        rw [hline1p]
        have hmem_iff : p ∈ p0 :: cellLineRun line0 f s' ↔ p ∈ cellLineRun line0 f s' := by
          simp [List.mem_cons, hpp]
        simp only [hmem_iff]

/-! ## Unfolding of the LineSeries length loop -/

theorem seriesLenLoop_succ (sheet : Nat → Nat → CellData) (refRowIdx innerFuel fuel count : Nat) :
    seriesLenLoop sheet refRowIdx innerFuel (fuel + 1) count =
      match cellLineNext (sheetRowLine sheet refRowIdx) initCL with
      | none => some (some count)
      | some (p, _) =>
        match lineLen (sheetColLine sheet p) innerFuel initCL 0 with
        | none => none
        | some n => if n ≠ 0 then seriesLenLoop sheet refRowIdx innerFuel fuel (count + 1)
                    else some none := rfl

/-! ## Claim theorems -/

/-- C1: gap-tolerant cell iteration over a fixed line.  For a line populated
exactly at indices 0, 1, 2 and 12 (a 9-cell empty run, shorter than
MAX_CELL_GAP), iteration yields precisely the cells at positions 0..12,
interior empties included; for a line non-empty at 0, 1, 2 and 13 with
indices 3..12 empty (a 10-cell run, ≥ MAX_CELL_GAP), iteration stops after
yielding position 2 and does not emit the first empty cell. -/
theorem c1_gap_tolerant_scan
    (line1 line2 : Nat → CellData)
    (h1 : ∀ j, (j = 0 ∨ j = 1 ∨ j = 2 ∨ j = 12) → cellString (line1 j) ≠ "")
    (h2 : ∀ j, ¬(j = 0 ∨ j = 1 ∨ j = 2 ∨ j = 12) → cellString (line1 j) = "")
    (h3 : ∀ j, j ≤ 2 → cellString (line2 j) ≠ "")
    (h4 : ∀ j, 3 ≤ j → j ≤ 12 → cellString (line2 j) = "")
    (h5 : cellString (line2 13) ≠ "") :
    (∀ fuel, 14 ≤ fuel → cellLineRun line1 fuel initCL = List.range 13) ∧
      (∀ fuel, 4 ≤ fuel → cellLineRun line2 fuel initCL = [0, 1, 2]) := by
  constructor
  · have hiff : ∀ q, cellString (line1 q) = "" ↔ cellString (patGapNine q) = "" := by
      intro q
      by_cases hq : q = 0 ∨ q = 1 ∨ q = 2 ∨ q = 12
      · refine iff_of_false (h1 q hq) ?_
        rcases hq with rfl | rfl | rfl | rfl <;> decide
      · refine iff_of_true (h2 q hq) ?_
        simp only [patGapNine]
        rw [if_neg hq]
        rfl
    intro fuel hfuel
    rw [cellLineRun_congr line1 patGapNine hiff fuel initCL,
      cellLineRun_stable patGapNine 14 fuel initCL hfuel (by decide)]
    decide
  · have e0 : cellLineNext line2 initCL = some (0, (⟨1, -1⟩ : CellLineState)) := by
      unfold cellLineNext
      rw [if_neg (fun hc => h3 0 (by omega) hc.1)]
      rfl
    have e1 : cellLineNext line2 (⟨1, -1⟩ : CellLineState) =
        some (1, (⟨2, -1⟩ : CellLineState)) := by
      unfold cellLineNext
      rw [if_neg (fun hc => h3 1 (by omega) hc.1)]
    have e2 : cellLineNext line2 (⟨2, -1⟩ : CellLineState) =
        some (2, (⟨3, -1⟩ : CellLineState)) := by
      unfold cellLineNext
      rw [if_neg (fun hc => h3 2 (by omega) hc.1)]
    have e3 : cellLineNext line2 (⟨3, -1⟩ : CellLineState) = none := by
      refine cellLineNext_gap_none line2 3 ⟨3, -1⟩ ?_ rfl
        (by show (-1 : Int) < ((3 : Nat) : Int); omega)
      intro j hj
      simp only [MAX_CELL_GAP] at hj
      exact h4 (3 + j) (by omega) (by omega)
    intro fuel hfuel
    obtain ⟨f, rfl⟩ : ∃ f, fuel = f + 4 := ⟨fuel - 4, by omega⟩
    have r0 : cellLineRun line2 (f + 4) initCL = 0 :: cellLineRun line2 (f + 3) ⟨1, -1⟩ :=
      cellLineRun_cons line2 (f + 3) initCL 0 ⟨1, -1⟩ e0
    have r1 : cellLineRun line2 (f + 3) (⟨1, -1⟩ : CellLineState) =
        1 :: cellLineRun line2 (f + 2) ⟨2, -1⟩ :=
      cellLineRun_cons line2 (f + 2) _ 1 _ e1
    have r2 : cellLineRun line2 (f + 2) (⟨2, -1⟩ : CellLineState) =
        2 :: cellLineRun line2 (f + 1) ⟨3, -1⟩ :=
      cellLineRun_cons line2 (f + 1) _ 2 _ e2
    have r3 : cellLineRun line2 (f + 1) (⟨3, -1⟩ : CellLineState) = [] :=
      cellLineRun_nil line2 f _ e3
    rw [r0, r1, r2, r3]

/-- C1 witness: the two scenario lines instantiated concretely. -/
theorem c1_gap_tolerant_scan_witness :
    cellLineRun patGapNine 14 initCL = List.range 13 ∧
      cellLineRun patGapTen 4 initCL = [0, 1, 2] := by
  have h1 : ∀ j, (j = 0 ∨ j = 1 ∨ j = 2 ∨ j = 12) → cellString (patGapNine j) ≠ "" := by
    intro j hj
    rcases hj with rfl | rfl | rfl | rfl <;> decide
  have h2 : ∀ j, ¬(j = 0 ∨ j = 1 ∨ j = 2 ∨ j = 12) → cellString (patGapNine j) = "" := by
    intro j hj
    simp only [patGapNine]
    rw [if_neg hj]
    rfl
  have h3 : ∀ j, j ≤ 2 → cellString (patGapTen j) ≠ "" := by
    intro j hj
    interval_cases j <;> decide
  have h4 : ∀ j, 3 ≤ j → j ≤ 12 → cellString (patGapTen j) = "" := by
    intro j hja hjb
    interval_cases j <;> decide
  have h5 : cellString (patGapTen 13) ≠ "" := by decide
  have h := c1_gap_tolerant_scan patGapNine patGapTen h1 h2 h3 h4 h5
  exact ⟨h.1 14 (Nat.le_refl _), h.2 4 (Nat.le_refl _)⟩

/-- C2: LineSeries.__len__ does NOT terminate on a series whose reference
line has a non-empty first cell — the loop re-creates the iterator on every
pass (`self.__iter__().__next__()`), so it retests the same first line
forever — although one full traversal of the same series yields exactly one
line.  This contradicts the claim that len terminates and returns the
traversal count (code bug at model.py:303). -/
theorem c2_series_len_diverges :
    (∀ fuel count, seriesLenLoop sheetA 0 2 fuel count = none) ∧
      lineLen (sheetRowLine sheetA 0) 20 initCL 0 = some 1 := by
  constructor
  · have hfirst : cellLineNext (sheetRowLine sheetA 0) initCL =
        some (0, (⟨1, -1⟩ : CellLineState)) := by decide
    have hlen : lineLen (sheetColLine sheetA 0) 2 initCL 0 = some 1 := by decide
    intro fuel
    induction fuel with
    | zero => intro count; rfl
    | succ f ih =>
      intro count
      rw [seriesLenLoop_succ]
      rw [hfirst]
      show (match lineLen (sheetColLine sheetA 0) 2 initCL 0 with
        | none => none
        | some n => if n ≠ 0 then seriesLenLoop sheetA 0 2 f (count + 1) else some none) = none
      rw [hlen]
      show (if (1 : Nat) ≠ 0 then seriesLenLoop sheetA 0 2 f (count + 1) else some none) = none
      rw [if_pos (by omega)]
      exact ih (count + 1)
  · decide

/-- C3: the claim says a Line constructed with `(sheet, index,
reference_index)` stores the passed `reference_index`; the source
(model.py:401) stores `index` into the field instead, so a Row built by
`get_row_by_index(5)` on a sheet whose reference row index is 0 carries
`reference_index = 5`, not 0 (code bug). -/
theorem c3_line_init_reference_index :
    (lineInit 5 0).reference_index = 5 ∧ (5 : Int) ≠ 0 ∧
      xwGetRowByIndex { refRowIndex := 0, refColIndex := 0 } 5 =
        Except.ok { index := 5, reference_index := 5 } := by
  refine ⟨rfl, by norm_num, rfl⟩

/-- C4: the claim says `Sheet.get_row(name)` resolves by name and returns an
absent value when nothing matches; the source helper
`get_row_index_from_name` (model.py:162) iterates `self.rows` — Row objects,
not cells — and reads `.value` on them, so on a sheet whose reference column
yields any cell (here (0,0) = "a") the lookup raises AttributeError instead
of returning the matching row (code bug). -/
theorem c4_get_row_by_name_attribute_error :
    getRowByName (sheetColLine sheetA 0) "a" = Except.error PyErr.attributeError := by
  rfl

/-- C5: the claim says both backends reject index -1 in both accessors before
any host call; XW's two accessors and Uno's get_column_by_index do raise
ValueError, but Office.Uno.Sheet.get_row_by_index (model.py:1148-1161) has
no negative check and silently returns a Row with index -1 (code bug). -/
theorem c5_negative_index_validation :
    unoGetRowByIndex { refRowIndex := 0, refColIndex := 0 } (-1) =
        Except.ok { index := -1, reference_index := -1 } ∧
      unoGetColumnByIndex { refRowIndex := 0, refColIndex := 0 } (-1) =
        Except.error PyErr.valueError ∧
      xwGetRowByIndex { refRowIndex := 0, refColIndex := 0 } (-1) =
        Except.error PyErr.valueError ∧
      xwGetColumnByIndex { refRowIndex := 0, refColIndex := 0 } (-1) =
        Except.error PyErr.valueError :=
  ⟨rfl, rfl, rfl, rfl⟩

/-- C6: the claim says the y coordinate of Sheet.get_cell is resolved by name
exactly when `y_identifier_type` is 'name', or omitted with a string y id,
regardless of `x_identifier_type`.  The source condition (model.py:189)
tests `x_identifier_type is None`, so with y hint omitted and a string y id
the resolution flips with the x hint alone: by index when the x hint is
'index' or 'name', by name only when the x hint is omitted (code bug). -/
theorem c6_get_cell_y_dispatch :
    getCellYRes (some IdHint.index) none true = AxisRes.byIndex ∧
      getCellYRes (some IdHint.name) none true = AxisRes.byIndex ∧
      getCellYRes none none true = AxisRes.byName :=
  ⟨rfl, rfl, rfl⟩

/-- C7: the claim says clear() succeeds on every cell under both backends,
leaving value absent and color the default sentinel.  True under XW; under
Uno the value setter (model.py:1307) asserts the new value is str/int/float,
so the `self.value = None` inside clear raises AssertionError for every cell
(code bug). -/
theorem c7_cell_clear_backends :
    (∀ c : HostCell, xwCellClear c = { value := none, color := none }) ∧
      (∀ c : HostCell, unoCellClear c = Except.error PyErr.assertionError) :=
  ⟨fun _ => rfl, fun _ => rfl⟩

/-- C8 counterexample: Line.clear with include_header = true clears the cell
at position 0 even though name_cell_index = 1 — the source condition
`i > self.name_cell_index or include_header` (model.py:439) clears EVERY
iterated cell when include_header is true, so cells strictly before
name_cell_index are not left unchanged, contrary to the claim. -/
theorem c8_line_clear_counterexample :
    lineClear lineABC 1 true 20 0 = clearedCell ∧ lineABC 0 ≠ clearedCell := by
  decide

/-- C8 amended: Line.clear(include_header) clears exactly the iterated cells
whose enumeration position is strictly past name_cell_index when
include_header is false, and EVERY iterated cell — including those at and
before name_cell_index — when include_header is true; all other positions
keep their prior content. -/
theorem c8_line_clear_amended (line : Nat → CellData) (nci : Nat) (includeHeader : Bool)
    (fuel : Nat) (p : Nat) :
    lineClear line nci includeHeader fuel p =
      if p ∈ cellLineRun line fuel initCL ∧ (p > nci ∨ includeHeader = true) then clearedCell
      else line p :=
  lineClearLoop_spec nci includeHeader line fuel initCL 0 line rfl (fun _ _ => rfl) p

/-- C9: color round-trip.  For components in 0..255, the tuple constructor
accepts and packs r*65536 + g*256 + b, and Color.rgb unpacks back to
(r, g, b). -/
theorem c9_color_roundtrip (r g b : Nat) (hr : r ≤ 255) (hg : g ≤ 255) (hb : b ≤ 255) :
    colorInitTuple r g b = Except.ok (r * 65536 + g * 256 + b) ∧
      colorRgb (r * 65536 + g * 256 + b) = (r, g, b) := by
  constructor
  · unfold colorInitTuple
    rw [if_neg (by omega)]
    rw [Nat.shiftLeft_eq, Nat.shiftLeft_eq]
  · unfold colorRgb
    rw [Nat.shiftRight_eq_div_pow, Nat.shiftRight_eq_div_pow]
    have h255 : (255 : Nat) = 2 ^ 8 - 1 := by norm_num
    rw [h255, Nat.and_pow_two_sub_one_eq_mod, Nat.and_pow_two_sub_one_eq_mod,
      Nat.and_pow_two_sub_one_eq_mod]
    have e16 : (2 : Nat) ^ 16 = 65536 := by norm_num
    have e8 : (2 : Nat) ^ 8 = 256 := by norm_num
    rw [e16, e8]
    simp only [Prod.mk.injEq]
    omega

/-- C9 witness: the spec's concrete instance (255, 0, 128) ↔ 16711808. -/
theorem c9_color_roundtrip_witness :
    colorInitTuple 255 0 128 = Except.ok 16711808 ∧ colorRgb 16711808 = (255, 0, 128) := by
  have h := c9_color_roundtrip 255 0 128 (by norm_num) (by norm_num) (by norm_num)
  norm_num at h
  exact h

/-- C10: name lookup sees only the gap-tolerant prefix of the reference line.
If every cell valued `name` lies beyond a run of MAX_CELL_GAP consecutive
empty cells starting at `a`, then LineSeries.get_by_name and
Line.get_cell_by_reference — both of which scan via the gap-tolerant
iterator — return the absent value, for every fuel bound. -/
theorem c10_name_lookup_gap_prefix (refLine : Nat → CellData) (name : String) (a : Nat)
    (hrun : ∀ j, j < MAX_CELL_GAP → cellString (refLine (a + j)) = "")
    (hmatch : ∀ p, (refLine p).val = some name → a + MAX_CELL_GAP ≤ p) (fuel : Nat) :
    lineSeriesGetByName refLine name fuel = none ∧
      lineGetCellByReference refLine name fuel = none := by
  have h := findMatchPos_gap_none refLine name a hrun hmatch fuel initCL (Nat.zero_le a)
    (by show (-1 : Int) < (a : Int); omega)
  exact ⟨h, h⟩

/-- C10 witness: a reference line whose only "t" cell sits at position 15,
past the all-empty run 0..9. -/
theorem c10_name_lookup_gap_prefix_witness :
    lineSeriesGetByName lineFar "t" 30 = none ∧
      lineGetCellByReference lineFar "t" 30 = none := by
  refine c10_name_lookup_gap_prefix lineFar "t" 0 ?_ ?_ 30
  · intro j hj
    simp only [MAX_CELL_GAP] at hj
    interval_cases j <;> decide
  · intro p hm
    by_cases hp : p = 15
    · subst hp
      simp only [MAX_CELL_GAP]
      omega
    · exfalso
      simp only [lineFar] at hm
      rw [if_neg hp] at hm
      simp at hm
